import Mathlib

/- Shallow embedding of the Iran drought-monitoring dataset store
   (backend/app/datasets_store.py, backend/app/utils.py, import_data.py).

   Modelling conventions
   ---------------------
   * Python strings (dataset keys, index/column names, feature ids) are
     lists of Unicode code points (`Ident := List Nat`).
   * Month-truncated dates are month indices (`Nat`): the ts tables only
     ever store first-of-month dates, and `generate_series(min, max,
     interval one month)` then enumerates consecutive indices.
   * Numeric SQL values are rationals (`ℚ`); `NULL` is `Option.none`.
   * A dataset's wide time-series table is a list of rows, each carrying
     the feature id, the month, and one optional value per index column.
   * Exceptions raised by the Python code become `Except StoreErr`. -/

/-- A Python string, as its sequence of Unicode code points. -/
abbrev Ident := List Nat

/-- Whitespace code points removed by Python str.strip (ASCII range). -/
def isSpaceCp (c : Nat) : Bool := c = 32 || (9 ≤ c && c ≤ 13)

/-- One code point of the identifier whitelist [A-Za-z0-9_]
(`_DATASET_KEY_RE` in datasets_store.py). -/
def isKeyChar (c : Nat) : Bool :=
  (65 ≤ c && c ≤ 90) || (97 ≤ c && c ≤ 122) || (48 ≤ c && c ≤ 57) || c = 95

/-- Python str.strip(): drop leading and trailing whitespace. -/
def stripId (l : Ident) : Ident :=
  ((l.dropWhile isSpaceCp).reverse.dropWhile isSpaceCp).reverse

/-- Python str.lower() on one code point (ASCII fold, the only code points
reaching the validators' comparisons). -/
def lowerCp (c : Nat) : Nat := if 65 ≤ c && c ≤ 90 then c + 32 else c

/-- Python str.lower(). -/
def lowerId (l : Ident) : Ident := l.map lowerCp

/-- Error taxonomy of the store (ValueError messages in the source). -/
inductive StoreErr where
  | invalidIdentifier : StoreErr
  | notFound : StoreErr
  | unknownIndex (requested : Ident) (alternatives : List Ident) (truncated : Bool) : StoreErr
  deriving DecidableEq

/-- `_validate_dataset_key` (datasets_store.py): strip the raw value, then
require a non-empty match of `^[A-Za-z0-9_]+$`. -/
def validate_dataset_key (value : Ident) : Except StoreErr Ident :=
  let key := stripId value
  if key = [] || !(key.all isKeyChar) then Except.error StoreErr.invalidIdentifier
  else Except.ok key

/-- `_canonical_dataset_key` (datasets_store.py): validated key, lower-cased. -/
def canonical_dataset_key (value : Ident) : Except StoreErr Ident :=
  Except.map lowerId (validate_dataset_key value)

/-- `resolve_dataset_key` (datasets_store.py): validate, then match the
stored registry case-insensitively (`WHERE lower(dataset_key) = :k LIMIT 1`). -/
def resolve_dataset_key (registry : List Ident) (value : Ident) : Except StoreErr Ident :=
  match validate_dataset_key value with
  | Except.error e => Except.error e
  | Except.ok raw =>
    match registry.find? (fun k => decide (lowerId k = lowerId raw)) with
    | some k => Except.ok k
    | none => Except.error StoreErr.notFound

/-- `_ts_table` (datasets_store.py): "ts_" prepended to the canonical
lower-case key ([116, 115, 95] is "ts_"). -/
def ts_table (dataset_key : Ident) : Except StoreErr Ident :=
  Except.map (fun k => [116, 115, 95] ++ k) (canonical_dataset_key dataset_key)

/-- Code-point lexicographic order, as Python sorted() on str. -/
def lexLe : Ident → Ident → Bool
  | [], _ => true
  | _ :: _, [] => false
  | a :: as, b :: bs => if a < b then true else if b < a then false else lexLe as bs

def insertIdent (x : Ident) : List Ident → List Ident
  | [] => [x]
  | y :: ys => if lexLe x y then x :: y :: ys else y :: insertIdent x ys

/-- Python sorted() over identifier strings (insertion sort). -/
def sortIdents : List Ident → List Ident
  | [] => []
  | x :: xs => insertIdent x (sortIdents xs)

/-- `validate_index_name` (datasets_store.py): strip + lower the request,
then require membership in the set of the dataset's actual ts-table
columns; otherwise raise the unknown-index error whose message lists the
first 12 sorted alternatives, with an ellipsis marker when more exist. -/
def validate_index_name (cols : List Ident) (index : Ident) : Except StoreErr Ident :=
  let idx := lowerId (stripId index)
  let allowed := cols.dedup
  if idx ∈ allowed then Except.ok idx
  else Except.error
    (StoreErr.unknownIndex index ((sortIdents allowed).take 12) (decide (allowed.length > 12)))

deriving instance DecidableEq for Except

/- ------------------------------------------------------------------ -/
/- Time-series tables and the spatial/temporal query engine           -/
/- ------------------------------------------------------------------ -/

/-- One row of a dataset's wide ts table: feature id, month-truncated
date (month index), and one nullable numeric value per index column. -/
structure TsRow where
  feature_id : Ident
  date : Nat
  vals : List (Ident × Option ℚ)

/-- A dataset together with its ts-table schema and contents.
`key` is the stored dataset key, `columns` the index columns the ts table
was created with (what the information_schema query reports). -/
structure DatasetDb where
  key : Ident
  columns : List Ident
  rows : List TsRow

/-- Value of one index column in one row (NULL when the column is absent
or stores NULL). -/
def getVal (r : TsRow) (idx : Ident) : Option ℚ :=
  match r.vals.find? (fun p => decide (p.1 = idx)) with
  | some p => p.2
  | none => none

/-- `get_available_indices` (datasets_store.py): the dataset's ts-table
index columns, read back from schema metadata. -/
def get_available_indices (db : DatasetDb) : List Ident := db.columns

/-- SQL MIN over a list of dates (NULL on the empty set). -/
def sqlMin : List Nat → Option Nat
  | [] => none
  | d :: ds =>
    match sqlMin ds with
    | none => some d
    | some m => some (Nat.min d m)

/-- SQL MAX over a list of dates (NULL on the empty set). -/
def sqlMax : List Nat → Option Nat
  | [] => none
  | d :: ds =>
    match sqlMax ds with
    | none => some d
    | some m => some (Nat.max d m)

/-- Dates of the rows of one feature whose requested index is non-NULL
(`WHERE feature_id = :fid AND <idx> IS NOT NULL`). -/
def nonNullDates (db : DatasetDb) (fid idx : Ident) : List Nat :=
  (db.rows.filter (fun r => decide (r.feature_id = fid) && (getVal r idx).isSome)).map
    (fun r => r.date)

/-- `_index_min_max_date` (datasets_store.py): per-index coverage bounds
of one feature, ignoring NULLs. -/
def index_min_max_date (db : DatasetDb) (fid idx : Ident) : Option Nat × Option Nat :=
  (sqlMin (nonNullDates db fid idx), sqlMax (nonNullDates db fid idx))

/-- The row of one feature at one month, if present
(`WHERE feature_id = :fid AND date = :d`; `(feature_id, date)` is the
primary key, so at most one row matches). -/
def rowAt (db : DatasetDb) (fid : Ident) (d : Nat) : Option TsRow :=
  db.rows.find? (fun r => decide (r.feature_id = fid) && decide (r.date = d))

/-- Result shape of `fetch_timeseries_full` (feature display name omitted:
it does not interact with the series reconstruction). -/
structure TimeseriesFull where
  min_month : Option Nat
  max_month : Option Nat
  data : List (Nat × Option ℚ)
  deriving DecidableEq

/-- `fetch_timeseries_full` (datasets_store.py): continuous monthly series
between the feature's non-null coverage bounds; `generate_series` yields
every month of the closed range and the LEFT JOIN fills absent months with
NULL. -/
def fetch_timeseries_full (db : DatasetDb) (fid idx : Ident) : TimeseriesFull :=
  match index_min_max_date db fid idx with
  | (some mn, some mx) =>
    { min_month := some mn
      max_month := some mx
      data := (List.range' mn (mx + 1 - mn)).map
        (fun d => (d, Option.bind (rowAt db fid d) (fun r => getVal r idx))) }
  | _ => { min_month := none, max_month := none, data := [] }

/-- Note composition in `find_effective_month_for_value`:
`(note or "") + ("" if note is None else ";") + tag`. -/
def composeNote (note : Option String) (tag : String) : String :=
  match note with
  | none => tag
  | some n => n ++ ";" ++ tag

/-- `ORDER BY date DESC LIMIT 1` over (date, value) rows. -/
def argmaxDate : List (Nat × ℚ) → Option (Nat × ℚ)
  | [] => none
  | p :: ps =>
    some (match argmaxDate ps with
      | none => p
      | some q => if q.1 ≤ p.1 then p else q)

/-- `ORDER BY date ASC LIMIT 1` over (date, value) rows. -/
def argminDate : List (Nat × ℚ) → Option (Nat × ℚ)
  | [] => none
  | p :: ps =>
    some (match argminDate ps with
      | none => p
      | some q => if p.1 ≤ q.1 then p else q)

/-- Non-NULL (date, value) rows of one feature whose date satisfies `keep`
(`WHERE feature_id = :fid AND <idx> IS NOT NULL AND <date predicate>`). -/
def valueRows (db : DatasetDb) (fid idx : Ident) (keep : Nat → Bool) : List (Nat × ℚ) :=
  db.rows.filterMap (fun r =>
    if decide (r.feature_id = fid) && keep r.date then
      match getVal r idx with
      | some v => some (r.date, v)
      | none => none
    else none)

/-- `find_effective_month_for_value` (datasets_store.py): clamp the
requested month into the coverage bounds, then try the exact month, the
nearest earlier month with a value, the nearest later month with a value,
and finally give up with "no-value"; "no-data" when the feature has no
coverage at all. -/
def find_effective_month_for_value (db : DatasetDb) (fid idx : Ident) (requested : Nat) :
    Nat × Option ℚ × Option String :=
  match index_min_max_date db fid idx with
  | (some mn, some mx) =>
    let eff := if requested < mn then mn else if mx < requested then mx else requested
    let note : Option String :=
      if requested < mn then some "clamped-to-start"
      else if mx < requested then some "clamped-to-end"
      else none
    match Option.bind (rowAt db fid eff) (fun r => getVal r idx) with
    | some v => (eff, some v, note)
    | none =>
      match argmaxDate (valueRows db fid idx (fun d => decide (d ≤ eff))) with
      | some p => (p.1, some p.2, some (composeNote note "nearest-previous"))
      | none =>
        match argminDate (valueRows db fid idx (fun d => decide (eff < d))) with
        | some p => (p.1, some p.2, some (composeNote note "nearest-next"))
        | none => (eff, none, some (composeNote note "no-value"))
  | _ => (requested, none, some "no-data")

/- ------------------------------------------------------------------ -/
/- Trend statistic engine (backend/app/utils.py)                      -/
/- ------------------------------------------------------------------ -/

/-- Result shape of the external `pymannkendall.original_test`
collaborator (only the fields the source reads). -/
structure MKResult where
  Tau : ℚ
  p : ℚ
  slope : ℚ
  trend : String

/-- The dashboard's fixed 3-class trend labelling. -/
structure TrendClass where
  trend_category : String
  trend_label_en : String
  trend_label_fa : String
  trend_symbol : String
  deriving DecidableEq

/-- `DEFAULT_TREND_ALPHA = 0.05` (utils.py); `mkRat 5 100` is exactly 0.05. -/
def DEFAULT_TREND_ALPHA : ℚ := mkRat 5 100

/-- `classify_trend` (utils.py): 3-way classification of (Sen slope,
p-value) at significance `alpha`; `None` inputs coerce to slope 0 and
p-value 1. -/
def classify_trend (sen_slope p_value : Option ℚ) (alpha : ℚ) : TrendClass :=
  let slope := sen_slope.getD 0
  let p := p_value.getD 1
  if p > alpha then
    { trend_category := "none"
      trend_label_en := "No Significant Trend"
      trend_label_fa := "بدون روند معنی‌دار"
      trend_symbol := "—" }
  else if slope > 0 then
    { trend_category := "inc"
      trend_label_en := "Increasing Trend (Wetter)"
      trend_label_fa := "روند افزایشی (مرطوب‌تر)"
      trend_symbol := "↑" }
  else if slope < 0 then
    { trend_category := "dec"
      trend_label_en := "Decreasing Trend (Drier)"
      trend_label_fa := "روند کاهشی (خشک‌تر)"
      trend_symbol := "↓" }
  else
    { trend_category := "none"
      trend_label_en := "No Significant Trend"
      trend_label_fa := "بدون روند معنی‌دار"
      trend_symbol := "—" }

/-- Output of `mann_kendall_and_sen` (utils.py): the statistics dict; the
degenerate early return carries no classification keys, so the
classification part is optional. -/
structure TrendStats where
  tau : ℚ
  p_value : ℚ
  sen_slope : ℚ
  trend : String
  classification : Option TrendClass

/-- `mann_kendall_and_sen` (utils.py), parametrized by the external
Mann-Kendall test (`mk.original_test`). -/
def mann_kendall_and_sen (mkTest : List ℚ → MKResult) (values : List ℚ) : TrendStats :=
  if values.length < 2 then
    { tau := 0, p_value := 1, sen_slope := 0, trend := "no trend", classification := none }
  else
    let result := mkTest values
    { tau := result.Tau
      p_value := result.p
      sen_slope := result.slope
      trend := result.trend
      classification :=
        some (classify_trend (some result.slope) (some result.p) DEFAULT_TREND_ALPHA) }

/-- `drought_class` (utils.py). The thresholds are exactly the source's
decimals: mkRat (-8) 10 = -0.8, mkRat (-13) 10 = -1.3, mkRat (-16) 10 =
-1.6, mkRat (-2) 1 = -2.0. -/
def drought_class (value : ℚ) : String :=
  if value ≥ 0 then "Normal/Wet"
  else if value ≥ mkRat (-8) 10 then "D0"
  else if value ≥ mkRat (-13) 10 then "D1"
  else if value ≥ mkRat (-16) 10 then "D2"
  else if value ≥ mkRat (-2) 1 then "D3"
  else "D4"

/- ------------------------------------------------------------------ -/
/- Overview aggregation (fetch_overview_counts)                       -/
/- ------------------------------------------------------------------ -/

/-- Result row of the overview aggregation query. -/
structure OverviewCounts where
  with_value : Nat
  missing : Nat
  normal_wet : Nat
  d0 : Nat
  d1 : Nat
  d2 : Nat
  d3 : Nat
  d4 : Nat
  deriving DecidableEq

/-- `COUNT(*) FILTER (WHERE <cond val>)`: NULL rows never satisfy a
comparison filter. -/
def sqlFilterCount (vals : List (Option ℚ)) (cond : ℚ → Bool) : Nat :=
  vals.countP (fun o =>
    match o with
    | some v => cond v
    | none => false)

/-- `fetch_overview_counts` (datasets_store.py) applied to the requested
month's column values (the CTE `v`); thresholds as in the SQL text, with
mkRat (-8) 10 = -0.8 etc. -/
def fetch_overview_counts (vals : List (Option ℚ)) : OverviewCounts :=
  { with_value := vals.countP (fun o => o.isSome)
    missing := vals.countP (fun o => o.isNone)
    normal_wet := sqlFilterCount vals (fun v => decide (v ≥ 0))
    d0 := sqlFilterCount vals (fun v => decide (v < 0) && decide (v ≥ mkRat (-8) 10))
    d1 := sqlFilterCount vals (fun v => decide (v < mkRat (-8) 10) && decide (v ≥ mkRat (-13) 10))
    d2 := sqlFilterCount vals (fun v => decide (v < mkRat (-13) 10) && decide (v ≥ mkRat (-16) 10))
    d3 := sqlFilterCount vals (fun v => decide (v < mkRat (-16) 10) && decide (v ≥ mkRat (-2) 1))
    d4 := sqlFilterCount vals (fun v => decide (v < mkRat (-2) 1)) }

/- ------------------------------------------------------------------ -/
/- Bulk trend computation and the import pipeline's final step        -/
/- ------------------------------------------------------------------ -/

/-- Insertion step for the ORDER BY date within one group. -/
def insertRowByDate (r : TsRow) : List TsRow → List TsRow
  | [] => [r]
  | x :: xs => if r.date ≤ x.date then r :: x :: xs else x :: insertRowByDate r xs

/-- `array_agg(... ORDER BY date)`: date-sorted rows of one group. -/
def sortRowsByDate : List TsRow → List TsRow
  | [] => []
  | x :: xs => insertRowByDate x (sortRowsByDate xs)

/-- `fetch_trend_stats_all` (datasets_store.py): group the non-NULL rows
of one index by feature, order each group by date, and run the trend
engine on each feature's cleaned value sequence. -/
def fetch_trend_stats_all (mkTest : List ℚ → MKResult) (db : DatasetDb) (idx : Ident) :
    List (Ident × TrendStats) :=
  let nonNull := db.rows.filter (fun r => (getVal r idx).isSome)
  let fids := (nonNull.map (fun r => r.feature_id)).dedup
  fids.map (fun fid =>
    let ordered := sortRowsByDate (nonNull.filter (fun r => decide (r.feature_id = fid)))
    let cleaned := ordered.filterMap (fun r => getVal r idx)
    (fid, mann_kendall_and_sen mkTest cleaned))

/-- The result cache keyed by (dataset key, index name), as the trend
cache key `trend_all:<level>:<index>` of the request layer. -/
abbrev TrendCache := List ((Ident × Ident) × List (Ident × TrendStats))

def trendKey (dataset idx : Ident) : Ident × Ident := (dataset, idx)

/-- Cache read: newest entry for the key wins. -/
def cacheGet (c : TrendCache) (k : Ident × Ident) : Option (List (Ident × TrendStats)) :=
  match c.find? (fun p => decide (p.1 = k)) with
  | some p => some p.2
  | none => none

/-- Cache write (overwrite semantics: reads see the newest value). -/
def cacheSet (c : TrendCache) (k : Ident × Ident) (v : List (Ident × TrendStats)) : TrendCache :=
  (k, v) :: c

/-- Modelled from the spec: `precompute_trend_stats` is imported from the
datasets store by both the import pipeline (import_data.py) and the
standalone script (backend/scripts/precompute_trends.py), but its
definition is not among the provided source files.  Per the spec's
Precompute-trends step it "runs the Trend Statistic Engine for every index
column now present and persists/caches the results": for one (dataset,
index) pair it computes the full-history per-feature trend statistics,
stores them in the result cache under that pair's key, and returns the
number of features processed. -/
def precompute_trend_stats (mkTest : List ℚ → MKResult) (db : DatasetDb)
    (cache : TrendCache) (idx : Ident) : Nat × TrendCache :=
  let stats := fetch_trend_stats_all mkTest db idx
  (stats.length, cacheSet cache (trendKey db.key idx) stats)

/-- `precompute_dataset_trends` (import_data.py), the pipeline's final
step: run the precompute for every index column now present (a no-op when
the dataset has none). -/
def precompute_dataset_trends (mkTest : List ℚ → MKResult) (db : DatasetDb)
    (cache : TrendCache) : TrendCache :=
  let indices := get_available_indices db
  indices.foldl (fun c idx => (precompute_trend_stats mkTest db c idx).2) cache


/- ------------------------------------------------------------------ -/
/- Helper lemmas                                                      -/
/- ------------------------------------------------------------------ -/

theorem isSpaceCp_eq_false_of_isKeyChar {c : Nat} (h : isKeyChar c = true) :
    isSpaceCp c = false := by
  simp only [isKeyChar, Bool.or_eq_true, Bool.and_eq_true, decide_eq_true_eq] at h
  simp only [isSpaceCp, Bool.or_eq_false_iff, Bool.and_eq_false_iff, decide_eq_false_iff_not]
  omega

theorem isKeyChar_lowerCp {c : Nat} (h : isKeyChar c = true) :
    isKeyChar (lowerCp c) = true := by
  simp only [isKeyChar, lowerCp, Bool.or_eq_true, Bool.and_eq_true, decide_eq_true_eq] at h ⊢
  by_cases hc : 65 ≤ c ∧ c ≤ 90
  · rw [if_pos hc]
    omega
  · rw [if_neg hc]
    omega

theorem lowerCp_idem (c : Nat) : lowerCp (lowerCp c) = lowerCp c := by
  simp only [lowerCp, Bool.and_eq_true, decide_eq_true_eq]
  by_cases h : 65 ≤ c ∧ c ≤ 90
  · rw [if_pos h, if_neg (by omega)]
  · rw [if_neg h, if_neg h]

theorem lowerId_idem (l : Ident) : lowerId (lowerId l) = lowerId l := by
  simp only [lowerId, List.map_map]
  exact List.map_congr_left (fun c _ => lowerCp_idem c)

theorem lowerId_all_keyChar {l : Ident} (h : l.all isKeyChar = true) :
    (lowerId l).all isKeyChar = true := by
  simp only [List.all_eq_true] at h ⊢
  intro c hc
  simp only [lowerId, List.mem_map] at hc
  obtain ⟨a, ha, rfl⟩ := hc
  exact isKeyChar_lowerCp (h a ha)

theorem dropWhile_eq_self_of_none {p : Nat → Bool} {l : Ident}
    (h : ∀ c ∈ l, p c = false) : l.dropWhile p = l := by
  cases l with
  | nil => rfl
  | cons c cs => simp [List.dropWhile_cons, h c (List.mem_cons_self c cs)]

theorem stripId_eq_self_of_keyChars {l : Ident} (h : l.all isKeyChar = true) :
    stripId l = l := by
  simp only [List.all_eq_true] at h
  have h1 : l.dropWhile isSpaceCp = l :=
    dropWhile_eq_self_of_none (fun c hc => isSpaceCp_eq_false_of_isKeyChar (h c hc))
  have h2 : l.reverse.dropWhile isSpaceCp = l.reverse :=
    dropWhile_eq_self_of_none
      (fun c hc => isSpaceCp_eq_false_of_isKeyChar (h c (List.mem_reverse.mp hc)))
  simp only [stripId, h1, h2, List.reverse_reverse]

theorem validate_ok_inv {v k : Ident} (h : validate_dataset_key v = Except.ok k) :
    stripId v = k ∧ k ≠ [] ∧ k.all isKeyChar = true := by
  simp only [validate_dataset_key] at h
  split at h
  · exact absurd h (by simp)
  · rename_i hcond
    simp only [Bool.or_eq_true, decide_eq_true_eq, Bool.not_eq_true', not_or,
      Bool.not_eq_false] at hcond
    have hk : stripId v = k := by simpa using h
    exact ⟨hk, hk ▸ hcond.1, hk ▸ hcond.2⟩

theorem validate_ok_of_keyChars {k : Ident} (hne : k ≠ []) (hall : k.all isKeyChar = true) :
    validate_dataset_key k = Except.ok k := by
  simp only [validate_dataset_key, stripId_eq_self_of_keyChars hall]
  rw [if_neg]
  simp [hne, hall]

theorem sqlMin_eq_none_iff (l : List Nat) : sqlMin l = none ↔ l = [] := by
  cases l with
  | nil => simp [sqlMin]
  | cons d ds =>
    simp only [sqlMin]
    constructor
    · intro h
      split at h <;> simp_all
    · intro h
      exact absurd h (by simp)

theorem sqlMin_mem {l : List Nat} {m : Nat} (h : sqlMin l = some m) : m ∈ l := by
  induction l generalizing m with
  | nil => simp [sqlMin] at h
  | cons d ds ih =>
    simp only [sqlMin] at h
    split at h
    · simp only [Option.some.injEq] at h
      exact h ▸ List.mem_cons_self d ds
    · rename_i m' hm'
      simp only [Option.some.injEq, Nat.min_def] at h
      split at h
      · exact h ▸ List.mem_cons_self d ds
      · exact List.mem_cons_of_mem _ (h ▸ ih hm')

theorem sqlMin_le {l : List Nat} {m : Nat} (h : sqlMin l = some m) :
    ∀ x ∈ l, m ≤ x := by
  induction l generalizing m with
  | nil => simp
  | cons d ds ih =>
    intro x hx
    simp only [sqlMin] at h
    split at h
    · rename_i hnone
      rw [sqlMin_eq_none_iff] at hnone
      subst hnone
      simp only [Option.some.injEq] at h
      simp only [List.mem_cons, List.not_mem_nil, or_false] at hx
      omega
    · rename_i m' hm'
      simp only [Option.some.injEq, Nat.min_def] at h
      rcases List.mem_cons.mp hx with hxd | hx'
      · split at h <;> omega
      · have h2 := ih hm' x hx'
        split at h <;> omega

theorem sqlMax_eq_none_iff (l : List Nat) : sqlMax l = none ↔ l = [] := by
  cases l with
  | nil => simp [sqlMax]
  | cons d ds =>
    simp only [sqlMax]
    constructor
    · intro h
      split at h <;> simp_all
    · intro h
      exact absurd h (by simp)

theorem sqlMax_mem {l : List Nat} {m : Nat} (h : sqlMax l = some m) : m ∈ l := by
  induction l generalizing m with
  | nil => simp [sqlMax] at h
  | cons d ds ih =>
    simp only [sqlMax] at h
    split at h
    · simp only [Option.some.injEq] at h
      exact h ▸ List.mem_cons_self d ds
    · rename_i m' hm'
      simp only [Option.some.injEq, Nat.max_def] at h
      split at h
      · exact List.mem_cons_of_mem _ (h ▸ ih hm')
      · exact h ▸ List.mem_cons_self d ds

theorem sqlMax_ge {l : List Nat} {m : Nat} (h : sqlMax l = some m) :
    ∀ x ∈ l, x ≤ m := by
  induction l generalizing m with
  | nil => simp
  | cons d ds ih =>
    intro x hx
    simp only [sqlMax] at h
    split at h
    · rename_i hnone
      rw [sqlMax_eq_none_iff] at hnone
      subst hnone
      simp only [Option.some.injEq] at h
      simp only [List.mem_cons, List.not_mem_nil, or_false] at hx
      omega
    · rename_i m' hm'
      simp only [Option.some.injEq, Nat.max_def] at h
      rcases List.mem_cons.mp hx with hxd | hx'
      · split at h <;> omega
      · have h2 := ih hm' x hx'
        split at h <;> omega

theorem mem_insertIdent {x y : Ident} {l : List Ident} :
    x ∈ insertIdent y l ↔ x = y ∨ x ∈ l := by
  induction l with
  | nil => simp [insertIdent]
  | cons z zs ih =>
    simp only [insertIdent]
    split
    · simp [List.mem_cons]
    · simp only [List.mem_cons, ih]
      tauto

theorem mem_sortIdents {x : Ident} {l : List Ident} :
    x ∈ sortIdents l ↔ x ∈ l := by
  induction l with
  | nil => simp [sortIdents]
  | cons y ys ih =>
    simp only [sortIdents, mem_insertIdent, ih, List.mem_cons]

theorem argmaxDate_eq_none_iff (l : List (Nat × ℚ)) : argmaxDate l = none ↔ l = [] := by
  cases l with
  | nil => simp [argmaxDate]
  | cons p ps => simp [argmaxDate]

theorem find?_row_of_nodup {l : List TsRow} {row : TsRow} {fid : Ident} {d : Nat}
    (hnd : (l.map (fun r => (r.feature_id, r.date))).Nodup)
    (hrow : row ∈ l) (hfid : row.feature_id = fid) (hdate : row.date = d) :
    l.find? (fun r => decide (r.feature_id = fid) && decide (r.date = d)) = some row := by
  induction l with
  | nil => simp at hrow
  | cons x xs ih =>
    simp only [List.map_cons, List.nodup_cons, List.mem_map] at hnd
    rcases List.mem_cons.mp hrow with rfl | hmem
    · exact List.find?_cons_of_pos _ (by simp [hfid, hdate])
    · have hxf : (decide (x.feature_id = fid) && decide (x.date = d)) = false := by
        rw [Bool.eq_false_iff]
        intro hx
        simp only [Bool.and_eq_true, decide_eq_true_eq] at hx
        exact hnd.1 ⟨row, hmem, by rw [hfid, hdate, hx.1, hx.2]⟩
      rw [List.find?_cons, hxf]
      exact ih hnd.2 hmem

theorem countP_option (p : ℚ → Bool) (vals : List (Option ℚ)) :
    sqlFilterCount vals p = (vals.filterMap id).countP p := by
  induction vals with
  | nil => rfl
  | cons o os ih =>
    cases o with
    | none =>
      simp only [sqlFilterCount, List.countP_cons, List.filterMap_cons] at ih ⊢
      simpa using ih
    | some v =>
      simp only [sqlFilterCount, List.countP_cons, List.filterMap_cons] at ih ⊢
      simp only [id, List.countP_cons]
      rw [ih]

theorem cacheGet_cacheSet_same (c : TrendCache) (k : Ident × Ident)
    (v : List (Ident × TrendStats)) : cacheGet (cacheSet c k v) k = some v := by
  simp [cacheGet, cacheSet, List.find?_cons_of_pos]

theorem cacheGet_cacheSet_other (c : TrendCache) (k k' : Ident × Ident)
    (v : List (Ident × TrendStats)) (h : k ≠ k') :
    cacheGet (cacheSet c k v) k' = cacheGet c k' := by
  simp only [cacheGet, cacheSet]
  rw [List.find?_cons_of_neg _ (by simp [h])]

theorem find?_some_of_mem {l : List Ident} {x : Ident} {p : Ident → Bool}
    (hx : x ∈ l) (hpx : p x = true) :
    ∃ y, l.find? p = some y ∧ y ∈ l ∧ p y = true := by
  have hs : (l.find? p).isSome = true := List.find?_isSome.mpr ⟨x, hx, hpx⟩
  rcases Option.isSome_iff_exists.mp hs with ⟨y, hy⟩
  exact ⟨y, hy, List.mem_of_find?_eq_some hy, List.find?_some hy⟩

theorem mem_nonNullDates {db : DatasetDb} {fid idx : Ident} {r : TsRow}
    (hr : r ∈ db.rows) (hfid : r.feature_id = fid)
    (hval : (getVal r idx).isSome = true) :
    r.date ∈ nonNullDates db fid idx := by
  simp only [nonNullDates, List.mem_map]
  exact ⟨r, List.mem_filter.mpr ⟨hr, by simp [hfid, hval]⟩, rfl⟩

theorem of_mem_nonNullDates {db : DatasetDb} {fid idx : Ident} {d : Nat}
    (hd : d ∈ nonNullDates db fid idx) :
    ∃ r ∈ db.rows, r.feature_id = fid ∧ (getVal r idx).isSome = true ∧ r.date = d := by
  simp only [nonNullDates, List.mem_map] at hd
  rcases hd with ⟨r, hr, hrd⟩
  rcases List.mem_filter.mp hr with ⟨hmem, hcond⟩
  simp only [Bool.and_eq_true, decide_eq_true_eq] at hcond
  exact ⟨r, hmem, hcond.1, hcond.2, hrd⟩

theorem drought_class_iff (v : ℚ) :
    (drought_class v = "Normal/Wet" ↔ 0 ≤ v) ∧
    (drought_class v = "D0" ↔ mkRat (-8) 10 ≤ v ∧ v < 0) ∧
    (drought_class v = "D1" ↔ mkRat (-13) 10 ≤ v ∧ v < mkRat (-8) 10) ∧
    (drought_class v = "D2" ↔ mkRat (-16) 10 ≤ v ∧ v < mkRat (-13) 10) ∧
    (drought_class v = "D3" ↔ mkRat (-2) 1 ≤ v ∧ v < mkRat (-16) 10) ∧
    (drought_class v = "D4" ↔ v < mkRat (-2) 1) := by
  have c1 : mkRat (-2) 1 < mkRat (-16) 10 := by decide
  have c2 : mkRat (-16) 10 < mkRat (-13) 10 := by decide
  have c3 : mkRat (-13) 10 < mkRat (-8) 10 := by decide
  have c4 : mkRat (-8) 10 < 0 := by decide
  simp only [drought_class, ge_iff_le]
  split_ifs with h1 h2 h3 h4 h5 <;>
    refine ⟨?_, ?_, ?_, ?_, ?_, ?_⟩ <;>
    constructor <;> intro h <;>
    first
      | rfl
      | exact absurd h (by decide)
      | linarith
      | (exact ⟨by linarith, by linarith⟩)

/- ------------------------------------------------------------------ -/
/- Claim theorems                                                     -/
/- ------------------------------------------------------------------ -/

/-- C2 counterexample: the raw input " Abc " (code points [32, 65, 98, 99,
32]) contains a space, a character outside [A-Za-z0-9_], yet key
validation succeeds (the source strips whitespace before matching the
whitelist regex) instead of failing with InvalidIdentifier. -/
theorem validate_key_whitespace_counterexample :
    canonical_dataset_key [32, 65, 98, 99, 32] = Except.ok [97, 98, 99] ∧
    (32 ∈ [32, 65, 98, 99, 32]) ∧ isKeyChar 32 = false := by decide

/-- C2 (amended): key validation accepts exactly the inputs whose
whitespace-stripped form is non-empty and consists only of letters, digits
and underscore; every other input fails with InvalidIdentifier; on success
the canonical output is always the lower-cased stripped key. -/
theorem validate_key_characterization (raw : Ident) :
    (stripId raw ≠ [] ∧ (stripId raw).all isKeyChar = true →
      canonical_dataset_key raw = Except.ok (lowerId (stripId raw))) ∧
    (¬(stripId raw ≠ [] ∧ (stripId raw).all isKeyChar = true) →
      canonical_dataset_key raw = Except.error StoreErr.invalidIdentifier) := by
  constructor
  · rintro ⟨h1, h2⟩
    simp [canonical_dataset_key, validate_dataset_key, Except.map, h1, h2]
  · intro h
    rw [not_and_or] at h
    rcases h with h | h
    · rw [not_ne_iff] at h
      simp [canonical_dataset_key, validate_dataset_key, Except.map, h]
    · simp only [Bool.not_eq_true] at h
      simp [canonical_dataset_key, validate_dataset_key, Except.map, h]

/-- C2 witness: both sides of the characterization at concrete inputs
("A" is accepted with canonical form "a"; "!" is rejected). -/
theorem validate_key_characterization_witness :
    canonical_dataset_key [65] = Except.ok [97] ∧
    canonical_dataset_key [33] = Except.error StoreErr.invalidIdentifier :=
  ⟨(validate_key_characterization [65]).1 (by decide),
   (validate_key_characterization [33]).2 (by decide)⟩

/-- C3 counterexample: with actual columns ["spi3"], the requested name
"SPI3" (code points [83, 80, 73, 51]) is not among the actual columns, yet
index validation succeeds with the lower-cased name instead of failing
with UnknownIndex. -/
theorem validate_index_name_case_counterexample :
    validate_index_name [[115, 112, 105, 51]] [83, 80, 73, 51] =
      Except.ok [115, 112, 105, 51] ∧
    [83, 80, 73, 51] ∉ [[115, 112, 105, 51]] := by decide

/-- C3 (amended): whenever the normalized (stripped, lower-cased) requested
name is not among the dataset's actual columns, validation fails with
UnknownIndex listing at most 12 of the actual columns (with a truncation
marker exactly when more than 12 distinct columns exist); whenever it
succeeds, the returned name is the normalized request and is itself an
actual column — never a different fallback column. -/
theorem validate_index_name_characterization (cols : List Ident) (raw : Ident) :
    (lowerId (stripId raw) ∉ cols →
      validate_index_name cols raw =
        Except.error (StoreErr.unknownIndex raw ((sortIdents cols.dedup).take 12)
          (decide (cols.dedup.length > 12))) ∧
      ((sortIdents cols.dedup).take 12).length ≤ 12 ∧
      (∀ a ∈ (sortIdents cols.dedup).take 12, a ∈ cols)) ∧
    (∀ out, validate_index_name cols raw = Except.ok out →
      out ∈ cols ∧ out = lowerId (stripId raw)) := by
  constructor
  · intro hnm
    have hnm' : lowerId (stripId raw) ∉ cols.dedup := fun hc => hnm (List.mem_dedup.mp hc)
    refine ⟨?_, ?_, ?_⟩
    · simp [validate_index_name, hnm']
    · rw [List.length_take]
      exact min_le_left _ _
    · intro a ha
      have hmem := List.take_subset 12 (sortIdents cols.dedup) ha
      exact List.mem_dedup.mp (mem_sortIdents.mp hmem)
  · intro out hout
    simp only [validate_index_name] at hout
    split at hout
    · rename_i hin
      have heq : out = lowerId (stripId raw) := by simpa using hout.symm
      exact ⟨heq ▸ List.mem_dedup.mp hin, heq⟩
    · exact absurd hout (by simp)

/-- C3 witness: with columns ["a", "b"], requesting "c" fails with the
capped UnknownIndex listing, while requesting "a" returns "a" itself, an
actual column. -/
theorem validate_index_name_characterization_witness :
    validate_index_name [[97], [98]] [99] =
      Except.error (StoreErr.unknownIndex [99]
        ((sortIdents ([[97], [98]] : List Ident).dedup).take 12)
        (decide (([[97], [98]] : List Ident).dedup.length > 12))) ∧
    ([97] ∈ ([[97], [98]] : List Ident) ∧ ([97] : Ident) = lowerId (stripId [97])) :=
  ⟨((validate_index_name_characterization [[97], [98]] [99]).1 (by decide)).1,
   (validate_index_name_characterization [[97], [98]] [97]).2 [97] (by decide)⟩

/-- C5: severity bucketing is the same fixed half-open partition in the
overview SQL aggregation and in drought_class: each overview bucket counts
exactly the values drought_class puts in that bucket, drought_class
realizes the half-open intervals (>= 0 Normal/Wet, [-0.8, 0) D0,
[-1.3, -0.8) D1, [-1.6, -1.3) D2, [-2.0, -1.6) D3, < -2.0 D4), and in
particular -0.8 falls in D0 and -0.801 falls in D1 under both. -/
theorem severity_partition_agreement :
    (∀ vals : List (Option ℚ),
      (fetch_overview_counts vals).normal_wet =
        (vals.filterMap id).countP (fun v => drought_class v == "Normal/Wet") ∧
      (fetch_overview_counts vals).d0 =
        (vals.filterMap id).countP (fun v => drought_class v == "D0") ∧
      (fetch_overview_counts vals).d1 =
        (vals.filterMap id).countP (fun v => drought_class v == "D1") ∧
      (fetch_overview_counts vals).d2 =
        (vals.filterMap id).countP (fun v => drought_class v == "D2") ∧
      (fetch_overview_counts vals).d3 =
        (vals.filterMap id).countP (fun v => drought_class v == "D3") ∧
      (fetch_overview_counts vals).d4 =
        (vals.filterMap id).countP (fun v => drought_class v == "D4")) ∧
    (∀ v : ℚ,
      (drought_class v = "Normal/Wet" ↔ 0 ≤ v) ∧
      (drought_class v = "D0" ↔ mkRat (-8) 10 ≤ v ∧ v < 0) ∧
      (drought_class v = "D1" ↔ mkRat (-13) 10 ≤ v ∧ v < mkRat (-8) 10) ∧
      (drought_class v = "D2" ↔ mkRat (-16) 10 ≤ v ∧ v < mkRat (-13) 10) ∧
      (drought_class v = "D3" ↔ mkRat (-2) 1 ≤ v ∧ v < mkRat (-16) 10) ∧
      (drought_class v = "D4" ↔ v < mkRat (-2) 1)) ∧
    drought_class (mkRat (-8) 10) = "D0" ∧
    drought_class (mkRat (-801) 1000) = "D1" ∧
    fetch_overview_counts [some (mkRat (-8) 10)] =
      { with_value := 1, missing := 0, normal_wet := 0, d0 := 1, d1 := 0, d2 := 0,
        d3 := 0, d4 := 0 } ∧
    fetch_overview_counts [some (mkRat (-801) 1000)] =
      { with_value := 1, missing := 0, normal_wet := 0, d0 := 0, d1 := 1, d2 := 0,
        d3 := 0, d4 := 0 } := by
  refine ⟨?_, fun v => drought_class_iff v, by decide, by decide, by decide, by decide⟩
  intro vals
  refine ⟨?_, ?_, ?_, ?_, ?_, ?_⟩ <;>
    simp only [fetch_overview_counts] <;>
    rw [countP_option] <;>
    refine List.countP_congr (fun x _ => ?_) <;>
    simp only [Bool.and_eq_true, decide_eq_true_eq, beq_iff_eq, ge_iff_le]
  · rw [(drought_class_iff x).1]
  · rw [(drought_class_iff x).2.1]
    exact and_comm
  · rw [(drought_class_iff x).2.2.1]
    exact and_comm
  · rw [(drought_class_iff x).2.2.2.1]
    exact and_comm
  · rw [(drought_class_iff x).2.2.2.2.1]
    exact and_comm
  · rw [(drought_class_iff x).2.2.2.2.2]

/-- C7: dataset-key resolution is case-insensitive and the derived table
name is canonical: a stored valid key K and its lower-cased spelling
resolve to the same stored key (some registry entry), and the ts table
name derived from either spelling is "ts_" ++ lower(K). -/
theorem resolve_dataset_key_case_insensitive (registry : List Ident) (K : Ident)
    (hmem : K ∈ registry) (hK : validate_dataset_key K = Except.ok K) :
    resolve_dataset_key registry K = resolve_dataset_key registry (lowerId K) ∧
    (∃ k', k' ∈ registry ∧ resolve_dataset_key registry K = Except.ok k') ∧
    ts_table K = Except.ok ([116, 115, 95] ++ lowerId K) ∧
    ts_table (lowerId K) = Except.ok ([116, 115, 95] ++ lowerId K) := by
  obtain ⟨hstrip, hne, hall⟩ := validate_ok_inv hK
  have hlall : (lowerId K).all isKeyChar = true := lowerId_all_keyChar hall
  have hlne : lowerId K ≠ [] := by
    intro hc
    exact hne (by simpa [lowerId] using hc)
  have hKl : validate_dataset_key (lowerId K) = Except.ok (lowerId K) :=
    validate_ok_of_keyChars hlne hlall
  obtain ⟨k', hfind, hk'mem, _⟩ :=
    find?_some_of_mem (p := fun k => decide (lowerId k = lowerId K)) hmem (by simp)
  have hfun : (fun k => decide (lowerId k = lowerId (lowerId K))) =
      (fun k => decide (lowerId k = lowerId K)) := by
    funext k
    rw [lowerId_idem]
  refine ⟨?_, ⟨k', hk'mem, ?_⟩, ?_, ?_⟩
  · simp only [resolve_dataset_key, hK, hKl, hfun, hfind]
  · simp only [resolve_dataset_key, hK, hfind]
  · simp only [ts_table, canonical_dataset_key, hK, Except.map]
  · simp only [ts_table, canonical_dataset_key, hKl, Except.map, lowerId_idem]

/-- C7 witness: a registry holding the single stored key "Sta" (code
points [83, 116, 97]); both spellings resolve identically and both derive
the table name "ts_sta". -/
theorem resolve_dataset_key_case_insensitive_witness :
    resolve_dataset_key [[83, 116, 97]] [83, 116, 97] =
      resolve_dataset_key [[83, 116, 97]] (lowerId [83, 116, 97]) ∧
    (∃ k', k' ∈ [[83, 116, 97]] ∧
      resolve_dataset_key [[83, 116, 97]] [83, 116, 97] = Except.ok k') ∧
    ts_table [83, 116, 97] = Except.ok ([116, 115, 95] ++ lowerId [83, 116, 97]) ∧
    ts_table (lowerId [83, 116, 97]) =
      Except.ok ([116, 115, 95] ++ lowerId [83, 116, 97]) :=
  resolve_dataset_key_case_insensitive [[83, 116, 97]] [83, 116, 97] (by decide) (by decide)

/-- C8: the 3-way trend classification at significance level 0.05:
p > 0.05 yields category "none"; p <= 0.05 with positive slope yields
"inc"; p <= 0.05 with negative slope yields "dec"; p <= 0.05 with zero
slope yields "none". -/
theorem classify_trend_three_way (slope p : ℚ) :
    (p > DEFAULT_TREND_ALPHA →
      (classify_trend (some slope) (some p) DEFAULT_TREND_ALPHA).trend_category = "none") ∧
    (p ≤ DEFAULT_TREND_ALPHA → 0 < slope →
      (classify_trend (some slope) (some p) DEFAULT_TREND_ALPHA).trend_category = "inc") ∧
    (p ≤ DEFAULT_TREND_ALPHA → slope < 0 →
      (classify_trend (some slope) (some p) DEFAULT_TREND_ALPHA).trend_category = "dec") ∧
    (p ≤ DEFAULT_TREND_ALPHA → slope = 0 →
      (classify_trend (some slope) (some p) DEFAULT_TREND_ALPHA).trend_category = "none") := by
  refine ⟨fun h1 => ?_, fun h1 h2 => ?_, fun h1 h2 => ?_, fun h1 h2 => ?_⟩ <;>
    simp only [classify_trend, Option.getD_some] <;>
    split_ifs <;>
    first
      | rfl
      | linarith

/-- C8 witness: the four classification cases at concrete (slope, p)
pairs, including the spec's examples p = 0.2 (no trend) and p = 0.01. -/
theorem classify_trend_three_way_witness :
    (classify_trend (some 1) (some (mkRat 2 10)) DEFAULT_TREND_ALPHA).trend_category = "none" ∧
    (classify_trend (some 1) (some (mkRat 1 100)) DEFAULT_TREND_ALPHA).trend_category = "inc" ∧
    (classify_trend (some (-1)) (some (mkRat 1 100)) DEFAULT_TREND_ALPHA).trend_category = "dec" ∧
    (classify_trend (some 0) (some (mkRat 1 100)) DEFAULT_TREND_ALPHA).trend_category = "none" :=
  ⟨(classify_trend_three_way 1 (mkRat 2 10)).1 (by decide),
   (classify_trend_three_way 1 (mkRat 1 100)).2.1 (by decide) (by decide),
   (classify_trend_three_way (-1) (mkRat 1 100)).2.2.1 (by decide) (by decide),
   (classify_trend_three_way 0 (mkRat 1 100)).2.2.2 (by decide) rfl⟩

/-- C9: with fewer than 2 input values the trend engine returns exactly
tau 0, p-value 1, Sen slope 0 and label "no trend"; classifying that
degenerate (slope 0, p-value 1) pair at the 0.05 level gives category
"none". -/
theorem mann_kendall_degenerate (mkTest : List ℚ → MKResult) (values : List ℚ)
    (h : values.length < 2) :
    mann_kendall_and_sen mkTest values =
      { tau := 0, p_value := 1, sen_slope := 0, trend := "no trend",
        classification := none } ∧
    (classify_trend (some 0) (some 1) DEFAULT_TREND_ALPHA).trend_category = "none" := by
  constructor
  · unfold mann_kendall_and_sen
    rw [if_pos h]
  · decide

/-- C9 witness: the degenerate result on the empty input sequence, with an
arbitrary concrete external test oracle. -/
theorem mann_kendall_degenerate_witness :
    mann_kendall_and_sen (fun _ => { Tau := 0, p := 1, slope := 0, trend := "no trend" }) [] =
      { tau := 0, p_value := 1, sen_slope := 0, trend := "no trend",
        classification := none } ∧
    (classify_trend (some 0) (some 1) DEFAULT_TREND_ALPHA).trend_category = "none" :=
  mann_kendall_degenerate (fun _ => { Tau := 0, p := 1, slope := 0, trend := "no trend" })
    [] (by decide)

/-- C4: between existing non-null coverage bounds, fetch_timeseries_full
returns exactly one entry per calendar month of the closed range
[minMonth, maxMonth], in ascending date order, and any month with no
non-null source value carries value null; when the feature has no non-null
value for the index at all, the series is empty with null bounds. -/
theorem fetch_timeseries_full_continuous (db : DatasetDb) (fid idx : Ident) :
    (∀ mn mx, index_min_max_date db fid idx = (some mn, some mx) →
      (fetch_timeseries_full db fid idx).min_month = some mn ∧
      (fetch_timeseries_full db fid idx).max_month = some mx ∧
      (fetch_timeseries_full db fid idx).data.map Prod.fst = List.range' mn (mx + 1 - mn) ∧
      (∀ m : Nat,
        m ∈ (fetch_timeseries_full db fid idx).data.map Prod.fst ↔ mn ≤ m ∧ m ≤ mx) ∧
      List.Pairwise (· < ·) ((fetch_timeseries_full db fid idx).data.map Prod.fst) ∧
      (∀ q ∈ (fetch_timeseries_full db fid idx).data,
        (∀ r ∈ db.rows, r.feature_id = fid → r.date = q.1 → getVal r idx = none) →
        q.2 = none)) ∧
    ((∀ r ∈ db.rows, r.feature_id = fid → getVal r idx = none) →
      fetch_timeseries_full db fid idx =
        { min_month := none, max_month := none, data := [] }) := by
  constructor
  · intro mn mx hb
    have hb' := hb
    simp only [index_min_max_date, Prod.mk.injEq] at hb'
    obtain ⟨hmin, hmax⟩ := hb'
    have hmn_mem := sqlMin_mem hmin
    have hmnmx : mn ≤ mx := sqlMax_ge hmax mn hmn_mem
    have hres : fetch_timeseries_full db fid idx =
        { min_month := some mn
          max_month := some mx
          data := (List.range' mn (mx + 1 - mn)).map
            (fun d => (d, Option.bind (rowAt db fid d) (fun r => getVal r idx))) } := by
      unfold fetch_timeseries_full
      rw [hb]
    rw [hres]
    have hfst : (((List.range' mn (mx + 1 - mn)).map
        (fun d => (d, Option.bind (rowAt db fid d) (fun r => getVal r idx)))).map Prod.fst) =
        List.range' mn (mx + 1 - mn) := by
      rw [List.map_map]
      exact List.map_id' _
    refine ⟨rfl, rfl, hfst, ?_, ?_, ?_⟩
    · intro m
      rw [hfst, List.mem_range'_1]
      omega
    · rw [hfst]
      exact List.pairwise_lt_range' mn (mx + 1 - mn)
    · intro q hq hnone
      rcases List.mem_map.mp hq with ⟨d, hd, rfl⟩
      simp only [rowAt]
      cases hrow : db.rows.find? (fun r => decide (r.feature_id = fid) && decide (r.date = d)) with
      | none => rfl
      | some r =>
        have hp := List.find?_some hrow
        simp only [Bool.and_eq_true, decide_eq_true_eq] at hp
        have hnil := hnone r (List.mem_of_find?_eq_some hrow) hp.1 hp.2
        simp [hnil]
  · intro hall
    have hD : nonNullDates db fid idx = [] := by
      simp only [nonNullDates, List.map_eq_nil_iff, List.filter_eq_nil_iff]
      intro r hr
      simp only [Bool.and_eq_true, decide_eq_true_eq, not_and]
      intro hfid
      rw [hall r hr hfid]
      simp
    have hb : index_min_max_date db fid idx = (none, none) := by
      simp only [index_min_max_date, hD]
      rfl
    unfold fetch_timeseries_full
    rw [hb]

/-- C4 witness: a feature with non-null values in months 3 and 5 yields
exactly the months 3, 4, 5 in order. -/
theorem fetch_timeseries_full_continuous_witness :
    (fetch_timeseries_full
        { key := [107], columns := [[105]],
          rows := [{ feature_id := [102], date := 3, vals := [([105], some 1)] },
                   { feature_id := [102], date := 5, vals := [([105], some 2)] }] }
        [102] [105]).data.map Prod.fst = List.range' 3 3 :=
  ((fetch_timeseries_full_continuous _ [102] [105]).1 3 5 (by decide)).2.2.1

/-- C6: effective-month resolution is the identity on months that already
carry a value: under the ts table's (feature_id, date) primary-key
invariant, if the requested month has a non-null value for the index, the
effective month equals the requested month, the value is that month's
value, and the note is empty. -/
theorem find_effective_month_idempotent (db : DatasetDb) (fid idx : Ident)
    (req : Nat) (v : ℚ) (row : TsRow)
    (hnd : (db.rows.map (fun r => (r.feature_id, r.date))).Nodup)
    (hrow : row ∈ db.rows) (hfid : row.feature_id = fid) (hdate : row.date = req)
    (hval : getVal row idx = some v) :
    find_effective_month_for_value db fid idx req = (req, some v, none) := by
  have hreqD : req ∈ nonNullDates db fid idx :=
    hdate ▸ mem_nonNullDates hrow hfid (by simp [hval])
  rcases hmin : sqlMin (nonNullDates db fid idx) with _ | mn
  · rw [sqlMin_eq_none_iff] at hmin
    rw [hmin] at hreqD
    simp at hreqD
  rcases hmax : sqlMax (nonNullDates db fid idx) with _ | mx
  · rw [sqlMax_eq_none_iff] at hmax
    rw [hmax] at hreqD
    simp at hreqD
  have hmn : mn ≤ req := sqlMin_le hmin req hreqD
  have hmx : req ≤ mx := sqlMax_ge hmax req hreqD
  have hb : index_min_max_date db fid idx = (some mn, some mx) := by
    simp only [index_min_max_date, hmin, hmax]
  have hrowAt : rowAt db fid req = some row := find?_row_of_nodup hnd hrow hfid hdate
  simp only [find_effective_month_for_value, hb]
  rw [if_neg (by omega : ¬ req < mn), if_neg (by omega : ¬ mx < req)]
  rw [hrowAt]
  simp [hval]
  rw [if_neg (by omega : ¬ req < mn), if_neg (by omega : ¬ mx < req)]

/-- C6 witness: a single-row table where month 7 holds value 2; requesting
month 7 returns month 7, value 2 and an empty note. -/
theorem find_effective_month_idempotent_witness :
    find_effective_month_for_value
      { key := [107], columns := [[105]],
        rows := [{ feature_id := [102], date := 7, vals := [([105], some 2)] }] }
      [102] [105] 7 = (7, some 2, none) :=
  find_effective_month_idempotent _ [102] [105] 7 2
    { feature_id := [102], date := 7, vals := [([105], some 2)] }
    (by decide) (List.mem_cons_self _ _) rfl rfl rfl

/-- C10 (implicit): whenever the feature has non-null coverage bounds for
the index, effective-month resolution returns a non-null value for every
requested month — the terminal no-value branch is unreachable, because
after clamping the nearest-previous search always finds at least the
coverage minimum. -/
theorem find_effective_month_total (db : DatasetDb) (fid idx : Ident)
    (req mn mx : Nat) (hb : index_min_max_date db fid idx = (some mn, some mx)) :
    ((find_effective_month_for_value db fid idx req).2.1).isSome = true := by
  have hb' := hb
  simp only [index_min_max_date, Prod.mk.injEq] at hb'
  obtain ⟨hmin, hmax⟩ := hb'
  have hmnD := sqlMin_mem hmin
  have hmnmx : mn ≤ mx := sqlMax_ge hmax mn hmnD
  obtain ⟨r0, hr0mem, hr0fid, hr0some, hr0date⟩ := of_mem_nonNullDates hmnD
  simp only [find_effective_month_for_value, hb]
  set eff := if req < mn then mn else if mx < req then mx else req with heff
  have heffmn : mn ≤ eff := by
    rw [heff]
    split_ifs <;> omega
  cases hex : Option.bind (rowAt db fid eff) (fun r => getVal r idx) with
  | some v => simp
  | none =>
    obtain ⟨w, hw⟩ := Option.isSome_iff_exists.mp hr0some
    have hcand : (r0.date, w) ∈ valueRows db fid idx (fun d => decide (d ≤ eff)) := by
      simp only [valueRows, List.mem_filterMap]
      refine ⟨r0, hr0mem, ?_⟩
      rw [if_pos, hw]
      simp only [Bool.and_eq_true, decide_eq_true_eq]
      exact ⟨hr0fid, by omega⟩
    rcases hargs : argmaxDate (valueRows db fid idx (fun d => decide (d ≤ eff))) with _ | p
    · rw [argmaxDate_eq_none_iff] at hargs
      rw [hargs] at hcand
      simp at hcand
    · simp [hargs]

/-- C10 witness: coverage exists (single value at month 3); a request far
outside the coverage (month 9) still yields a non-null value. -/
theorem find_effective_month_total_witness :
    ((find_effective_month_for_value
        { key := [107], columns := [[105]],
          rows := [{ feature_id := [102], date := 3, vals := [([105], some 1)] }] }
        [102] [105] 9).2.1).isSome = true :=
  find_effective_month_total _ [102] [105] 9 3 3 (by decide)

theorem trendCache_fold_preserve (mkTest : List ℚ → MKResult) (db : DatasetDb)
    (l : List Ident) (c : TrendCache) (k : Ident × Ident)
    (h : ∀ i ∈ l, trendKey db.key i ≠ k) :
    cacheGet (l.foldl (fun c idx => (precompute_trend_stats mkTest db c idx).2) c) k =
      cacheGet c k := by
  induction l generalizing c with
  | nil => rfl
  | cons x xs ih =>
    rw [List.foldl_cons]
    rw [ih _ (fun i hi => h i (List.mem_cons_of_mem _ hi))]
    show cacheGet (cacheSet c (trendKey db.key x) (fetch_trend_stats_all mkTest db x)) k =
      cacheGet c k
    exact cacheGet_cacheSet_other _ _ _ _ (h x (List.mem_cons_self x xs))

theorem trendCache_fold_sets (mkTest : List ℚ → MKResult) (db : DatasetDb) :
    ∀ (l : List Ident) (c : TrendCache), l.Nodup → ∀ i ∈ l,
      cacheGet (l.foldl (fun c idx => (precompute_trend_stats mkTest db c idx).2) c)
        (trendKey db.key i) = some (fetch_trend_stats_all mkTest db i) := by
  intro l
  induction l with
  | nil =>
    intro c _ i hi
    simp at hi
  | cons x xs ih =>
    intro c hnd i hi
    rw [List.foldl_cons]
    rcases List.mem_cons.mp hi with rfl | hmem
    · have hx_nin := (List.nodup_cons.mp hnd).1
      have hne : ∀ j ∈ xs, trendKey db.key j ≠ trendKey db.key i := by
        intro j hj hc
        have hji : j = i := congrArg Prod.snd hc
        exact hx_nin (hji ▸ hj)
      rw [trendCache_fold_preserve mkTest db xs _ _ hne]
      show cacheGet (cacheSet c (trendKey db.key i) (fetch_trend_stats_all mkTest db i))
        (trendKey db.key i) = some (fetch_trend_stats_all mkTest db i)
      exact cacheGet_cacheSet_same _ _ _
    · exact ih _ (List.nodup_cons.mp hnd).2 i hmem

/-- C1: the import pipeline's final step precomputes the full-history
trend statistics for every index column present in the dataset's ts table
and caches them: after precompute_dataset_trends runs, every (dataset,
index) pair's per-feature trend results are warm in the cache, equal to
what fetch_trend_stats_all computes. -/
theorem precompute_dataset_trends_warm (mkTest : List ℚ → MKResult) (db : DatasetDb)
    (cache : TrendCache) (hnd : db.columns.Nodup) (idx : Ident)
    (hidx : idx ∈ get_available_indices db) :
    cacheGet (precompute_dataset_trends mkTest db cache) (trendKey db.key idx) =
      some (fetch_trend_stats_all mkTest db idx) :=
  trendCache_fold_sets mkTest db db.columns cache hnd idx hidx

/-- C1 witness: a one-column dataset; after the precompute step the cache
holds that column's full trend result under its (dataset, index) key. -/
theorem precompute_dataset_trends_warm_witness :
    cacheGet
      (precompute_dataset_trends (fun _ => { Tau := 0, p := 1, slope := 0, trend := "no trend" })
        { key := [107], columns := [[105]],
          rows := [{ feature_id := [102], date := 3, vals := [([105], some 1)] }] }
        [])
      (trendKey [107] [105]) =
      some (fetch_trend_stats_all (fun _ => { Tau := 0, p := 1, slope := 0, trend := "no trend" })
        { key := [107], columns := [[105]],
          rows := [{ feature_id := [102], date := 3, vals := [([105], some 1)] }] }
        [105]) :=
  precompute_dataset_trends_warm _ _ [] (by decide) [105] (by decide)
